import Mathlib

set_option maxRecDepth 40000

/-- Proleptic Gregorian leap-year predicate, as implemented by ECMAScript `Date`. -/
def isLeapYear (y : Int) : Bool := (y % 4 == 0 && y % 100 != 0) || y % 400 == 0

/-- Length in days of year `yoe` of a 400-year Gregorian era (year 0 of the era is leap). -/
def yearLenOfEra (yoe : Nat) : Nat := if isLeapYear (yoe : Int) then 366 else 365

/-- Walk forward one year at a time: from year `yoe` and remaining day count `doy`,
find the year containing the day and the day-of-year offset inside it. -/
def splitYearAux : Nat → Nat → Nat → Nat × Nat
  | 0, yoe, doy => (yoe, doy)
  | fuel + 1, yoe, doy =>
    if doy < yearLenOfEra yoe then (yoe, doy)
    else splitYearAux fuel (yoe + 1) (doy - yearLenOfEra yoe)

def splitYear (doe : Nat) : Nat × Nat := splitYearAux 400 0 doe

/-- Day number (days since 1970-01-01) to day-of-era: the Gregorian calendar is
periodic with period 146097 days = 400 years; 719528 days separate 0000-01-01
from the Unix epoch. -/
def doeOfDay (z : Int) : Nat := ((z + 719528) % 146097).toNat

def monthLengths (leap : Bool) : List Nat :=
  [31, if leap then 29 else 28, 31, 30, 31, 30, 31, 31, 30, 31, 30, 31]

def splitMonth : List Nat → Nat → Nat × Nat
  | [], doy => (0, doy)
  | len :: rest, doy =>
    if doy < len then (0, doy)
    else
      let p := splitMonth rest (doy - len)
      (p.1 + 1, p.2)

/-- Month (1-12) and day-of-month (1-31) of a day number, proleptic Gregorian in UTC. -/
def monthAndDay (z : Int) : Nat × Nat :=
  let yd := splitYear (doeOfDay z)
  let md := splitMonth (monthLengths (isLeapYear (yd.1 : Int))) yd.2
  (md.1 + 1, md.2 + 1)

/-- Total days in years `[yoe, yoe + n)` of the era. -/
def sumLensFrom (yoe : Nat) : Nat → Nat
  | 0 => 0
  | n + 1 => yearLenOfEra yoe + sumLensFrom (yoe + 1) n

/-- English three-letter month abbreviations, as produced by the `MMM` pattern
of `date-fns` `format` in the default (en-US) locale. -/
def monthAbbrev : Nat → List Char
  | 1 => ['J', 'a', 'n']
  | 2 => ['F', 'e', 'b']
  | 3 => ['M', 'a', 'r']
  | 4 => ['A', 'p', 'r']
  | 5 => ['M', 'a', 'y']
  | 6 => ['J', 'u', 'n']
  | 7 => ['J', 'u', 'l']
  | 8 => ['A', 'u', 'g']
  | 9 => ['S', 'e', 'p']
  | 10 => ['O', 'c', 't']
  | 11 => ['N', 'o', 'v']
  | 12 => ['D', 'e', 'c']
  | _ => ['?', '?', '?']

/-- Two decimal digits with a leading zero, the `dd` pattern of `date-fns` `format`. -/
def twoDigitChars (d : Nat) : List Char := [Nat.digitChar (d / 10), Nat.digitChar (d % 10)]

/-- The `MMM dd` date label of a (month, day-of-month) pair. -/
def formatMMMdd (md : Nat × Nat) : String := String.mk (monthAbbrev md.1 ++ ' ' :: twoDigitChars md.2)

/-- The `MMM dd` label of a day number: what `format(date, DATE_FORMAT)` returns
for a date on that calendar day (local timezone modelled as UTC). -/
def fmtDay (z : Int) : String := formatMMMdd (monthAndDay z)

/-- A Stripe balance transaction, restricted to the fields `getBalanceTransactions`
reads: `created` (Unix seconds), `amount` (signed, minor currency units), `type`. -/
structure BalanceTransaction where
  created : Int
  amount : Int
  type : String
deriving DecidableEq

/-- One value of the `fundsFlowByDate` object: a date label and the accumulated
funds in/out in major units (JS numbers modelled as exact rationals). -/
structure FundsFlowByDate where
  date : String
  fundsIn : ℚ
  fundsOut : ℚ
deriving DecidableEq

/-- The `BalanceChartData` value assembled at the end of `getBalanceTransactions`. -/
structure BalanceChartData where
  currency : String
  balanceTransactionsDates : List String
  balanceTransactionsFundsIn : List ℚ
  balanceTransactionsFundsOut : List ℚ
deriving DecidableEq

/-- The object literal `getBalanceTransactions` returns. -/
structure BalanceTransactionsResult where
  balanceTransactions : List BalanceTransaction
  balanceFundsFlowChartData : BalanceChartData
deriving DecidableEq

def NUMBER_OF_DAYS : Nat := 10

/-- The source's `datesArray`: window-day labels, newest first —
`format(addDays(endDate, -index), DATE_FORMAT)` for `index = 0 .. NUMBER_OF_DAYS-1`.
`endDay` is the day number of the caller-supplied end date. -/
def datesArray (endDay : Int) : List String :=
  (List.range NUMBER_OF_DAYS).map (fun (index : Nat) => fmtDay (endDay - (index : Int)))

/-- A JS object keyed by date-label strings, modelled by its lookup function;
`hasOwnProperty` is `Option.isSome` of the lookup. -/
def FundsFlowMap : Type := String → Option FundsFlowByDate

def mapSet (m : FundsFlowMap) (key : String) (v : FundsFlowByDate) : FundsFlowMap :=
  fun k => if k = key then some v else m k

/-- The `datesArray.reduce(...)` initializer: one zero-valued bucket per date label. -/
def initFundsFlowByDate (dates : List String) : FundsFlowMap :=
  dates.foldl
    (fun m formattedDate =>
      mapSet m formattedDate { date := formattedDate, fundsIn := 0, fundsOut := 0 })
    (fun _ => none)

/-- Calendar day of `new Date(transaction.created * 1000)` (floor of seconds/86400; UTC). -/
def dayOfCreated (created : Int) : Int := Int.ediv created 86400

/-- The label `format(new Date(transaction.created * 1000), DATE_FORMAT)`. -/
def transactionLabel (t : BalanceTransaction) : String := fmtDay (dayOfCreated t.created)

/-- The conversion `const amount = Math.abs(transaction.amount) / 100`. -/
def transactionAmount (t : BalanceTransaction) : ℚ := (t.amount.natAbs : ℚ) / 100

/-- The excluded provisional types:
`type == "issuing_authorization_release" || type == "issuing_authorization_hold"`. -/
def isHoldOrRelease (t : BalanceTransaction) : Bool :=
  t.type == "issuing_authorization_release" || t.type == "issuing_authorization_hold"

/-- The bucket update inside the `forEach`: if a bucket exists for the transaction's
formatted date, add `|amount|/100` to its `fundsIn` when `amount > 0`, else to its
`fundsOut`. -/
def applyToBuckets (m : FundsFlowMap) (t : BalanceTransaction) : FundsFlowMap :=
  match m (transactionLabel t) with
  | some entry =>
    if 0 < t.amount then
      mapSet m (transactionLabel t) { entry with fundsIn := entry.fundsIn + transactionAmount t }
    else
      mapSet m (transactionLabel t) { entry with fundsOut := entry.fundsOut + transactionAmount t }
  | none => m

/-- One iteration of the `forEach` over `balanceTransactions.data`: skip
hold/release transactions entirely; otherwise update the buckets and push the
transaction onto `transactionList`. -/
def stepTransaction (st : FundsFlowMap × List BalanceTransaction) (t : BalanceTransaction) :
    FundsFlowMap × List BalanceTransaction :=
  if isHoldOrRelease t then st
  else (applyToBuckets st.1 t, st.2 ++ [t])

/-- The aggregation performed by `getBalanceTransactions` once the transaction
page has been fetched: build the 10-day label array, zero-initialize the buckets,
fold the transactions through the `forEach` body, project the per-label series,
and reverse all three arrays into chronological order. -/
def getBalanceTransactions (transactions : List BalanceTransaction) (endDay : Int)
    (currency : String) : BalanceTransactionsResult :=
  let dates := datesArray endDay
  let fundsFlowByDate := initFundsFlowByDate dates
  let st := transactions.foldl stepTransaction (fundsFlowByDate, [])
  let fundsInArray := dates.map (fun formattedDate =>
    ((st.1 formattedDate).getD { date := formattedDate, fundsIn := 0, fundsOut := 0 }).fundsIn)
  let fundsOutArray := dates.map (fun formattedDate =>
    ((st.1 formattedDate).getD { date := formattedDate, fundsIn := 0, fundsOut := 0 }).fundsOut)
  { balanceTransactions := st.2,
    balanceFundsFlowChartData :=
      { currency := currency,
        balanceTransactionsDates := dates.reverse,
        balanceTransactionsFundsIn := fundsInArray.reverse,
        balanceTransactionsFundsOut := fundsOutArray.reverse } }

/-- Total funds-in contribution of a transaction list to the bucket labelled `l`. -/
def fundsInOf (l : String) : List BalanceTransaction → ℚ
  | [] => 0
  | t :: rest =>
    (if isHoldOrRelease t = false ∧ transactionLabel t = l ∧ 0 < t.amount
     then transactionAmount t else 0) + fundsInOf l rest

/-- Total funds-out contribution of a transaction list to the bucket labelled `l`. -/
def fundsOutOf (l : String) : List BalanceTransaction → ℚ
  | [] => 0
  | t :: rest =>
    (if isHoldOrRelease t = false ∧ transactionLabel t = l ∧ ¬0 < t.amount
     then transactionAmount t else 0) + fundsOutOf l rest

/-- The source's `getBankTransferType`: the total `switch` on the country code used by
`createFundingInstructions`. -/
def getBankTransferType (country : String) : String :=
  if country = "GB" then "gb_bank_transfer"
  else if country = "US" then "us_bank_transfer"
  else "eu_bank_transfer"

/-- A Stripe Issuing authorization, restricted to the fields `getCardDetails`
reads: `approved` and `amount`. -/
structure Authorization where
  approved : Bool
  amount : Int
deriving DecidableEq

/-- The `forEach` loop of `getCardDetails` computing `current_spend`: add
`amount` for each authorization with `approved == true`. -/
def currentSpend (card_authorizations : List Authorization) : Int :=
  card_authorizations.foldl
    (fun current_spend authorization =>
      if authorization.approved = true then current_spend + authorization.amount
      else current_spend) 0

/-- The `cardTransactions` record assembled by `getCardDetails`
(`card_details`, fetched from the upstream API, is outside this model). -/
structure CardTransactions where
  card_authorizations : List Authorization
  current_spend : Int
deriving DecidableEq

/-- The pure part of `getCardDetails`: pair the fetched authorizations with the
computed `current_spend`. -/
def getCardDetails (card_authorizations : List Authorization) : CardTransactions :=
  { card_authorizations := card_authorizations,
    current_spend := currentSpend card_authorizations }

/-- The `Platform` enum from `./platform` (a module not among the provided
sources): the three supported platforms. At runtime JavaScript permits values
outside the enum (casts, untrusted input), which the `switch`'s `default`
branch handles; those are modelled by `unsupported`. -/
inductive Platform where
  | UK
  | EU
  | US
  | unsupported (s : String)
deriving DecidableEq

/-- Model of `process.env`: a partial map from variable names to strings. -/
def EnvMap : Type := String → Option String

/-- Model of `key || null`: both `undefined` and the empty string collapse to `null`. -/
def keyOrNull (key : Option String) : Option String :=
  match key with
  | none => none
  | some k => if k = "" then none else some k

/-- The source's `getStripeSecretKey`: select the per-platform secret key from the
environment; throw (`Except.error`) for a platform outside the enum. -/
def getStripeSecretKey (env : EnvMap) : Platform → Except String (Option String)
  | Platform.UK => Except.ok (keyOrNull (env ("STRIPE_SECRET_KEY_UK")))
  | Platform.EU => Except.ok (keyOrNull (env ("STRIPE_SECRET_KEY_EU")))
  | Platform.US => Except.ok (keyOrNull (env ("STRIPE_SECRET_KEY_US")))
  | Platform.unsupported s => Except.error ("Unsupported platform: " ++ s)

-- sanity checks
example : monthAndDay 0 = (1, 1) := by decide

example : monthAndDay 19723 = (1, 1) := by decide     -- 2024-01-01

example : monthAndDay 19782 = (2, 29) := by decide    -- 2024-02-29

example : monthAndDay (-1) = (12, 31) := by decide    -- 1969-12-31

example : monthAndDay 11016 = (2, 29) := by decide    -- 2000-02-29

example : monthAndDay (-25509) = (2, 28) := by decide -- 1900-02-28

example : monthAndDay (-25508) = (3, 1) := by decide  -- 1900-03-01 (1900 not leap)

example : monthAndDay 20372 = (10, 11) := by decide   -- 2025-10-11

theorem sumLensFrom_le (yoe n : Nat) : 365 * n ≤ sumLensFrom yoe n := by
  induction n generalizing yoe with
  | zero => simp [sumLensFrom]
  | succ m ih =>
    have h := ih (yoe + 1)
    have h2 : 365 ≤ yearLenOfEra yoe := by
      unfold yearLenOfEra; split <;> omega
    simp only [sumLensFrom]
    omega

theorem era_days : sumLensFrom 0 400 = 146097 := by decide

theorem splitYearAux_spec (fuel : Nat) : ∀ yoe doy, doy < sumLensFrom yoe fuel →
    ∃ j, j < fuel ∧ sumLensFrom yoe j ≤ doy ∧
      doy - sumLensFrom yoe j < yearLenOfEra (yoe + j) ∧
      splitYearAux fuel yoe doy = (yoe + j, doy - sumLensFrom yoe j) := by
  induction fuel with
  | zero => intro yoe doy h; simp [sumLensFrom] at h
  | succ fuel ih =>
    intro yoe doy h
    by_cases hlt : doy < yearLenOfEra yoe
    · refine ⟨0, by omega, ?_, ?_, ?_⟩
      · simp [sumLensFrom]
      · simpa [sumLensFrom] using hlt
      · simp [splitYearAux, hlt, sumLensFrom]
    · have h' : doy - yearLenOfEra yoe < sumLensFrom (yoe + 1) fuel := by
        simp only [sumLensFrom] at h; omega
      obtain ⟨j, hj, h1, h2, h3⟩ := ih (yoe + 1) (doy - yearLenOfEra yoe) h'
      have hyj : yoe + 1 + j = yoe + (j + 1) := by omega
      refine ⟨j + 1, by omega, ?_, ?_, ?_⟩
      · simp only [sumLensFrom]; omega
      · simp only [sumLensFrom]
        rw [hyj] at h2; omega
      · simp only [splitYearAux, if_neg hlt, h3, sumLensFrom, Prod.mk.injEq]
        exact ⟨by omega, by omega⟩

theorem sumLensFrom_add (a : Nat) : ∀ (yoe b : Nat),
    sumLensFrom yoe (a + b) = sumLensFrom yoe a + sumLensFrom (yoe + a) b := by
  induction a with
  | zero => intro yoe b; simp [sumLensFrom]
  | succ n ih =>
    intro yoe b
    have h1 : n + 1 + b = (n + b) + 1 := by omega
    rw [h1]
    show yearLenOfEra yoe + sumLensFrom (yoe + 1) (n + b) = _
    rw [ih (yoe + 1) b]
    show _ = (yearLenOfEra yoe + sumLensFrom (yoe + 1) n) + _
    have h2 : yoe + 1 + n = yoe + (n + 1) := by omega
    rw [h2]
    omega

theorem splitYear_spec (doe : Nat) (h : doe < 146097) :
    ∃ y, y ≤ 399 ∧ sumLensFrom 0 y ≤ doe ∧ doe - sumLensFrom 0 y < yearLenOfEra y ∧
      splitYear doe = (y, doe - sumLensFrom 0 y) := by
  have h' : doe < sumLensFrom 0 400 := by rw [era_days]; exact h
  obtain ⟨j, hj, h1, h2, h3⟩ := splitYearAux_spec 400 0 doe h'
  exact ⟨j, by omega, h1, by simpa using h2, by simpa [splitYear] using h3⟩

theorem splitMonth_spec : ∀ (L : List Nat) (doy : Nat), doy < L.sum →
    ∃ m r, splitMonth L doy = (m, r) ∧ m < L.length ∧ (L.take m).sum ≤ doy ∧
      doy = (L.take m).sum + r ∧ r < L.getD m 0 := by
  intro L
  induction L with
  | nil => intro doy h; simp at h
  | cons len rest ih =>
    intro doy h
    by_cases hlt : doy < len
    · exact ⟨0, doy, by simp [splitMonth, hlt], by simp, by simp, by simp, by simpa using hlt⟩
    · have h' : doy - len < rest.sum := by simp [List.sum_cons] at h; omega
      obtain ⟨m, r, e1, e2, e3, e4, e5⟩ := ih (doy - len) h'
      refine ⟨m + 1, r, ?_, by simpa using e2, ?_, ?_, by simpa using e5⟩
      · simp [splitMonth, hlt, e1]
      · simp [List.take_succ_cons, List.sum_cons]; omega
      · simp [List.take_succ_cons, List.sum_cons]; omega

theorem sumLensFrom_gap {y1 y2 : Nat} (h : y1 ≤ y2) :
    sumLensFrom 0 y1 + 365 * (y2 - y1) ≤ sumLensFrom 0 y2 := by
  have hadd := sumLensFrom_add y1 0 (y2 - y1)
  have hle := sumLensFrom_le y1 (y2 - y1)
  have h1 : y1 + (y2 - y1) = y2 := by omega
  rw [h1] at hadd
  simp only [Nat.zero_add] at hadd
  omega

theorem sumLensFrom_one (y : Nat) : sumLensFrom y 1 = yearLenOfEra y := by
  simp [sumLensFrom]

theorem sumLensFrom_succ (y : Nat) : sumLensFrom 0 (y + 1) = sumLensFrom 0 y + yearLenOfEra y := by
  have hadd := sumLensFrom_add y 0 1
  simp only [Nat.zero_add] at hadd
  rw [sumLensFrom_one] at hadd
  exact hadd

theorem monthLengths_sum (leap : Bool) : (monthLengths leap).sum = if leap then 366 else 365 := by
  cases leap <;> decide

theorem yearLen_eq_monthLengths_sum (y : Nat) :
    (monthLengths (isLeapYear (y : Int))).sum = yearLenOfEra y := by
  unfold yearLenOfEra
  cases h : isLeapYear (y : Int) <;> simp [monthLengths_sum, h]

theorem monthLengths_length (leap : Bool) : (monthLengths leap).length = 12 := by
  cases leap <;> rfl

theorem takeSum_leap_gap : ∀ m, m < 13 →
    ((monthLengths false).take m).sum ≤ ((monthLengths true).take m).sum ∧
    ((monthLengths true).take m).sum ≤ ((monthLengths false).take m).sum + 1 := by
  decide

theorem sumLensFrom_399 : sumLensFrom 0 399 = 145732 := by decide

theorem splitMonth_dec : ∀ dy, dy < 365 → 356 ≤ dy → (splitMonth (monthLengths false) dy).1 = 11 := by
  decide

theorem splitMonth_small : ∀ dy, dy < 31 →
    (splitMonth (monthLengths true) dy).1 = 0 ∧ (splitMonth (monthLengths false) dy).1 = 0 := by
  decide

theorem isLeapYear_399 : isLeapYear ((399 : Nat) : Int) = false := by decide

theorem isLeapYear_0 : isLeapYear ((0 : Nat) : Int) = true := by decide

/-- Two distinct days at most 9 days apart always have distinct (month, day-of-month)
pairs: a 10-day window never repeats a month/day label. -/
theorem monthAndDay_ne_of_near (z : Int) (k : Nat) (hk1 : 1 ≤ k) (hk2 : k ≤ 9) :
    monthAndDay (z - k) ≠ monthAndDay z := by
  intro heq
  have hd1lt : doeOfDay (z - k) < 146097 := by unfold doeOfDay; omega
  have hd2lt : doeOfDay z < 146097 := by unfold doeOfDay; omega
  have hrel : doeOfDay z = (doeOfDay (z - k) + k) % 146097 := by unfold doeOfDay; omega
  obtain ⟨y1, hy1, hs1, hl1, he1⟩ := splitYear_spec (doeOfDay (z - k)) hd1lt
  obtain ⟨y2, hy2, hs2, hl2, he2⟩ := splitYear_spec (doeOfDay z) hd2lt
  have hm1sum : doeOfDay (z - k) - sumLensFrom 0 y1 < (monthLengths (isLeapYear (y1 : Int))).sum := by
    rw [yearLen_eq_monthLengths_sum]; exact hl1
  have hm2sum : doeOfDay z - sumLensFrom 0 y2 < (monthLengths (isLeapYear (y2 : Int))).sum := by
    rw [yearLen_eq_monthLengths_sum]; exact hl2
  obtain ⟨m1, r1, f1, g1, t1, u1, v1⟩ :=
    splitMonth_spec (monthLengths (isLeapYear (y1 : Int))) (doeOfDay (z - k) - sumLensFrom 0 y1) hm1sum
  obtain ⟨m2, r2, f2, g2, t2, u2, v2⟩ :=
    splitMonth_spec (monthLengths (isLeapYear (y2 : Int))) (doeOfDay z - sumLensFrom 0 y2) hm2sum
  have hmd1 : monthAndDay (z - k) = (m1 + 1, r1 + 1) := by
    simp only [monthAndDay, he1, f1]
  have hmd2 : monthAndDay z = (m2 + 1, r2 + 1) := by
    simp only [monthAndDay, he2, f2]
  rw [hmd1, hmd2] at heq
  have hmr : m1 = m2 ∧ r1 = r2 := by simpa using heq
  obtain ⟨hm, hr⟩ := hmr
  subst hm; subst hr
  rw [monthLengths_length] at g1 g2
  by_cases hcase : doeOfDay (z - k) + k < 146097
  · -- no era wrap: doeOfDay z = doeOfDay (z - k) + k
    have hD2 : doeOfDay z = doeOfDay (z - k) + k := by
      rw [hrel]; exact Nat.mod_eq_of_lt hcase
    by_cases hyy : y1 = y2
    · subst hyy
      omega
    · -- different era years: at least 364 days apart
      have hgap : y1 < y2 ∨ y2 < y1 := by omega
      have hts : ((monthLengths (isLeapYear (y1 : Int))).take m1).sum ≤
            ((monthLengths (isLeapYear (y2 : Int))).take m1).sum + 1 ∧
          ((monthLengths (isLeapYear (y2 : Int))).take m1).sum ≤
            ((monthLengths (isLeapYear (y1 : Int))).take m1).sum + 1 := by
        have hg := takeSum_leap_gap m1 (by omega)
        cases isLeapYear (y1 : Int) <;> cases isLeapYear (y2 : Int) <;> omega
      rcases hgap with hlt | hlt
      · have := sumLensFrom_gap (Nat.le_of_lt hlt)
        omega
      · have := sumLensFrom_gap (Nat.le_of_lt hlt)
        omega
  · -- era wrap: the old day is at the very end of the era (late December),
    -- the new day at the very start (early January)
    have hD2 : doeOfDay z = doeOfDay (z - k) + k - 146097 := by omega
    have hdoe2 : doeOfDay z ≤ 8 := by omega
    have hdoe1 : 146088 ≤ doeOfDay (z - k) := by omega
    have hy2z : y2 = 0 := by
      have := sumLensFrom_le 0 y2
      omega
    have hy1e : y1 = 399 := by
      by_contra hne
      have hle : y1 + 1 ≤ 399 := by omega
      have h1 := sumLensFrom_succ y1
      have h2 := sumLensFrom_gap hle
      rw [sumLensFrom_399] at h2
      omega
    subst hy1e; subst hy2z
    rw [sumLensFrom_399] at t1 u1 hs1 f1 hl1
    rw [isLeapYear_399] at f1
    have hm11 : m1 = 11 := by
      have hdy1lt : doeOfDay (z - k) - 145732 < 365 := by
        unfold yearLenOfEra at hl1
        rw [isLeapYear_399] at hl1
        simp at hl1
        omega
      have := splitMonth_dec (doeOfDay (z - k) - 145732) hdy1lt (by omega)
      rw [f1] at this
      exact this
    have hm0 : m1 = 0 := by
      have hdy2 : doeOfDay z - sumLensFrom 0 0 < 31 := by simp [sumLensFrom]; omega
      have hsplit := splitMonth_small (doeOfDay z - sumLensFrom 0 0) hdy2
      rw [isLeapYear_0] at f2
      rw [f2] at hsplit
      exact hsplit.1
    omega

theorem monthLengths_getD_le : ∀ (leap : Bool) (m : Nat), m < 12 → (monthLengths leap).getD m 0 ≤ 31 := by
  decide

/-- Every day number yields a month in 1..12 and a day-of-month in 1..31. -/
theorem monthAndDay_valid (z : Int) :
    1 ≤ (monthAndDay z).1 ∧ (monthAndDay z).1 ≤ 12 ∧
      1 ≤ (monthAndDay z).2 ∧ (monthAndDay z).2 ≤ 31 := by
  have hdlt : doeOfDay z < 146097 := by unfold doeOfDay; omega
  obtain ⟨y, hy, hs, hl, he⟩ := splitYear_spec (doeOfDay z) hdlt
  have hsum : doeOfDay z - sumLensFrom 0 y < (monthLengths (isLeapYear (y : Int))).sum := by
    rw [yearLen_eq_monthLengths_sum]; exact hl
  obtain ⟨m, r, f, g, t, u, v⟩ := splitMonth_spec _ _ hsum
  have hmd : monthAndDay z = (m + 1, r + 1) := by simp only [monthAndDay, he, f]
  rw [monthLengths_length] at g
  have hr31 : r < 31 := by
    have := monthLengths_getD_le (isLeapYear (y : Int)) m g
    omega
  rw [hmd]
  simp only
  omega

example : fmtDay 0 = "Jan 01" := by decide

example : fmtDay 20372 = "Oct 11" := by decide

theorem monthAbbrev_length : ∀ m, (monthAbbrev m).length = 3 := by
  intro m
  unfold monthAbbrev
  split <;> rfl

theorem monthAbbrev_inj : ∀ m1, m1 < 13 → ∀ m2, m2 < 13 → 1 ≤ m1 → 1 ≤ m2 →
    monthAbbrev m1 = monthAbbrev m2 → m1 = m2 := by
  decide

theorem digitChar_inj : ∀ a, a < 10 → ∀ b, b < 10 → Nat.digitChar a = Nat.digitChar b → a = b := by
  decide

theorem twoDigitChars_inj (d1 d2 : Nat) (h1 : d1 ≤ 31) (h2 : d2 ≤ 31)
    (heq : twoDigitChars d1 = twoDigitChars d2) : d1 = d2 := by
  unfold twoDigitChars at heq
  simp only [List.cons.injEq, and_true] at heq
  have ha := digitChar_inj (d1 / 10) (by omega) (d2 / 10) (by omega) heq.1
  have hb := digitChar_inj (d1 % 10) (by omega) (d2 % 10) (by omega) heq.2
  omega

theorem formatMMMdd_inj (md1 md2 : Nat × Nat)
    (hm1 : 1 ≤ md1.1) (hm1' : md1.1 ≤ 12) (hd1 : md1.2 ≤ 31)
    (hm2 : 1 ≤ md2.1) (hm2' : md2.1 ≤ 12) (hd2 : md2.2 ≤ 31)
    (heq : formatMMMdd md1 = formatMMMdd md2) : md1 = md2 := by
  unfold formatMMMdd at heq
  have hdata : monthAbbrev md1.1 ++ ' ' :: twoDigitChars md1.2
      = monthAbbrev md2.1 ++ ' ' :: twoDigitChars md2.2 := by
    simpa using congrArg String.data heq
  have hlen : (monthAbbrev md1.1).length = (monthAbbrev md2.1).length := by
    rw [monthAbbrev_length, monthAbbrev_length]
  obtain ⟨hmon, htl⟩ := List.append_inj hdata hlen
  have hm := monthAbbrev_inj md1.1 (by omega) md2.1 (by omega) hm1 hm2 hmon
  simp only [List.cons.injEq, true_and] at htl
  have hd := twoDigitChars_inj md1.2 md2.2 hd1 hd2 htl
  exact Prod.ext hm hd

/-- Date labels of two distinct days at most 9 days apart are distinct strings. -/
theorem fmtDay_ne_of_near (z : Int) (k : Nat) (hk1 : 1 ≤ k) (hk2 : k ≤ 9) :
    fmtDay (z - k) ≠ fmtDay z := by
  intro h
  apply monthAndDay_ne_of_near z k hk1 hk2
  have v1 := monthAndDay_valid (z - k)
  have v2 := monthAndDay_valid z
  exact formatMMMdd_inj _ _ (by omega) (by omega) (by omega) (by omega) (by omega) (by omega) h

theorem foldl_init_lookup : ∀ (dates : List String) (m : FundsFlowMap) (k : String),
    (dates.foldl
      (fun m formattedDate =>
        mapSet m formattedDate { date := formattedDate, fundsIn := 0, fundsOut := 0 }) m) k
      = if k ∈ dates then some { date := k, fundsIn := 0, fundsOut := 0 } else m k := by
  intro dates
  induction dates with
  | nil => intro m k; simp
  | cons d rest ih =>
    intro m k
    simp only [List.foldl_cons]
    rw [ih]
    by_cases hk : k ∈ rest
    · simp [hk]
    · by_cases hkd : k = d
      · subst hkd; simp [hk, mapSet]
      · simp [hk, hkd, mapSet]

theorem initFundsFlowByDate_lookup (dates : List String) (k : String) :
    initFundsFlowByDate dates k =
      if k ∈ dates then some { date := k, fundsIn := 0, fundsOut := 0 } else none := by
  unfold initFundsFlowByDate
  rw [foldl_init_lookup]

theorem stepTransaction_hold (st : FundsFlowMap × List BalanceTransaction)
    (t : BalanceTransaction) (h : isHoldOrRelease t = true) : stepTransaction st t = st := by
  simp [stepTransaction, h]

theorem stepTransaction_nothold (st : FundsFlowMap × List BalanceTransaction)
    (t : BalanceTransaction) (h : isHoldOrRelease t = false) :
    stepTransaction st t = (applyToBuckets st.1 t, st.2 ++ [t]) := by
  simp [stepTransaction, h]

theorem applyToBuckets_none (m : FundsFlowMap) (t : BalanceTransaction)
    (h : m (transactionLabel t) = none) : applyToBuckets m t = m := by
  unfold applyToBuckets
  rw [h]

theorem applyToBuckets_some_pos (m : FundsFlowMap) (t : BalanceTransaction)
    (e : FundsFlowByDate) (h : m (transactionLabel t) = some e) (hp : 0 < t.amount) :
    applyToBuckets m t = mapSet m (transactionLabel t)
      { date := e.date, fundsIn := e.fundsIn + transactionAmount t, fundsOut := e.fundsOut } := by
  unfold applyToBuckets
  rw [h]
  simp only [if_pos hp]

theorem applyToBuckets_some_nonpos (m : FundsFlowMap) (t : BalanceTransaction)
    (e : FundsFlowByDate) (h : m (transactionLabel t) = some e) (hp : ¬0 < t.amount) :
    applyToBuckets m t = mapSet m (transactionLabel t)
      { date := e.date, fundsIn := e.fundsIn, fundsOut := e.fundsOut + transactionAmount t } := by
  unfold applyToBuckets
  rw [h]
  simp only [if_neg hp]

theorem foldl_buckets_none : ∀ (txs : List BalanceTransaction) (m : FundsFlowMap)
    (acc : List BalanceTransaction) (l : String), m l = none →
    (txs.foldl stepTransaction (m, acc)).1 l = none := by
  intro txs
  induction txs with
  | nil => intro m acc l h; exact h
  | cons t rest ih =>
    intro m acc l h
    simp only [List.foldl_cons]
    by_cases ht : isHoldOrRelease t
    · rw [stepTransaction_hold _ _ ht]; exact ih m acc l h
    · rw [stepTransaction_nothold _ _ (by simpa using ht)]
      apply ih
      show applyToBuckets m t l = none
      cases hml : m (transactionLabel t) with
      | none => rw [applyToBuckets_none m t hml]; exact h
      | some e =>
        have hne : l ≠ transactionLabel t := by
          intro hc; rw [hc, hml] at h; exact Option.noConfusion h
        by_cases hpos : 0 < t.amount
        · rw [applyToBuckets_some_pos m t e hml hpos]
          simp only [mapSet, if_neg hne]
          exact h
        · rw [applyToBuckets_some_nonpos m t e hml hpos]
          simp only [mapSet, if_neg hne]
          exact h

theorem foldl_buckets_lookup : ∀ (txs : List BalanceTransaction) (m : FundsFlowMap)
    (acc : List BalanceTransaction) (l : String) (entry : FundsFlowByDate),
    m l = some entry →
    (txs.foldl stepTransaction (m, acc)).1 l
      = some { date := entry.date, fundsIn := entry.fundsIn + fundsInOf l txs,
               fundsOut := entry.fundsOut + fundsOutOf l txs } := by
  intro txs
  induction txs with
  | nil =>
    intro m acc l entry h
    simpa [fundsInOf, fundsOutOf] using h
  | cons t rest ih =>
    intro m acc l entry h
    simp only [List.foldl_cons]
    by_cases ht : isHoldOrRelease t
    · rw [stepTransaction_hold _ _ ht]
      rw [ih m acc l entry h]
      have hin : fundsInOf l (t :: rest) = fundsInOf l rest := by
        simp only [fundsInOf]
        rw [if_neg (by simp [ht])]
        ring
      have hout : fundsOutOf l (t :: rest) = fundsOutOf l rest := by
        simp only [fundsOutOf]
        rw [if_neg (by simp [ht])]
        ring
      rw [hin, hout]
    · have ht' : isHoldOrRelease t = false := by simpa using ht
      rw [stepTransaction_nothold _ _ ht']
      cases hml : m (transactionLabel t) with
      | none =>
        have hne : transactionLabel t ≠ l := by
          intro hc; rw [hc, h] at hml; exact Option.noConfusion hml
        show ((rest.foldl stepTransaction (applyToBuckets m t, acc ++ [t]))).1 l = _
        rw [applyToBuckets_none m t hml]
        rw [ih m _ l entry h]
        have hin : fundsInOf l (t :: rest) = fundsInOf l rest := by
          simp only [fundsInOf]
          rw [if_neg (by intro hc; exact hne hc.2.1)]
          ring
        have hout : fundsOutOf l (t :: rest) = fundsOutOf l rest := by
          simp only [fundsOutOf]
          rw [if_neg (by intro hc; exact hne hc.2.1)]
          ring
        rw [hin, hout]
      | some e =>
        show ((rest.foldl stepTransaction (applyToBuckets m t, acc ++ [t]))).1 l = _
        by_cases hll : transactionLabel t = l
        · rw [hll, h] at hml
          have he : e = entry := by injection hml with h'; exact h'.symm
          subst he
          by_cases hpos : 0 < t.amount
          · rw [applyToBuckets_some_pos m t e (by rw [hll]; exact h) hpos]
            have hset : mapSet m (transactionLabel t) ({ date := e.date, fundsIn := e.fundsIn + transactionAmount t, fundsOut := e.fundsOut } : FundsFlowByDate) l = some ({ date := e.date, fundsIn := e.fundsIn + transactionAmount t, fundsOut := e.fundsOut } : FundsFlowByDate) := by
              simp [mapSet, hll]
            rw [ih _ _ l _ hset]
            have hin : fundsInOf l (t :: rest) = transactionAmount t + fundsInOf l rest := by
              simp only [fundsInOf]
              rw [if_pos ⟨ht', hll, hpos⟩]
            have hout : fundsOutOf l (t :: rest) = fundsOutOf l rest := by
              simp only [fundsOutOf]
              rw [if_neg (by intro hc; exact hc.2.2 hpos)]
              ring
            rw [hin, hout]
            simp only [Option.some.injEq, FundsFlowByDate.mk.injEq]
            refine ⟨trivial, by ring, trivial⟩
          · rw [applyToBuckets_some_nonpos m t e (by rw [hll]; exact h) hpos]
            have hset : mapSet m (transactionLabel t) ({ date := e.date, fundsIn := e.fundsIn, fundsOut := e.fundsOut + transactionAmount t } : FundsFlowByDate) l = some ({ date := e.date, fundsIn := e.fundsIn, fundsOut := e.fundsOut + transactionAmount t } : FundsFlowByDate) := by
              simp [mapSet, hll]
            rw [ih _ _ l _ hset]
            have hin : fundsInOf l (t :: rest) = fundsInOf l rest := by
              simp only [fundsInOf]
              rw [if_neg (by intro hc; exact hpos hc.2.2)]
              ring
            have hout : fundsOutOf l (t :: rest) = transactionAmount t + fundsOutOf l rest := by
              simp only [fundsOutOf]
              rw [if_pos ⟨ht', hll, hpos⟩]
            rw [hin, hout]
            simp only [Option.some.injEq, FundsFlowByDate.mk.injEq]
            refine ⟨trivial, trivial, by ring⟩
        · have hne2 : ¬l = transactionLabel t := fun hc => hll hc.symm
          have hl' : mapSet m (transactionLabel t)
              { date := e.date, fundsIn := e.fundsIn + transactionAmount t,
                fundsOut := e.fundsOut } l = some entry := by
            simp only [mapSet, if_neg hne2]
            exact h
          have hl'' : mapSet m (transactionLabel t)
              { date := e.date, fundsIn := e.fundsIn,
                fundsOut := e.fundsOut + transactionAmount t } l = some entry := by
            simp only [mapSet, if_neg hne2]
            exact h
          have hin : fundsInOf l (t :: rest) = fundsInOf l rest := by
            simp only [fundsInOf]
            rw [if_neg (by intro hc; exact hll hc.2.1)]
            ring
          have hout : fundsOutOf l (t :: rest) = fundsOutOf l rest := by
            simp only [fundsOutOf]
            rw [if_neg (by intro hc; exact hll hc.2.1)]
            ring
          by_cases hpos : 0 < t.amount
          · rw [applyToBuckets_some_pos m t e hml hpos]
            rw [ih _ _ l entry hl']
            rw [hin, hout]
          · rw [applyToBuckets_some_nonpos m t e hml hpos]
            rw [ih _ _ l entry hl'']
            rw [hin, hout]

theorem fundsInOf_append (l : String) : ∀ (xs ys : List BalanceTransaction),
    fundsInOf l (xs ++ ys) = fundsInOf l xs + fundsInOf l ys := by
  intro xs ys
  induction xs with
  | nil => simp [fundsInOf]
  | cons t rest ih =>
    simp only [List.cons_append, fundsInOf, List.append_eq, ih]
    ring

theorem fundsOutOf_append (l : String) : ∀ (xs ys : List BalanceTransaction),
    fundsOutOf l (xs ++ ys) = fundsOutOf l xs + fundsOutOf l ys := by
  intro xs ys
  induction xs with
  | nil => simp [fundsOutOf]
  | cons t rest ih =>
    simp only [List.cons_append, fundsOutOf, List.append_eq, ih]
    ring

theorem fundsInOf_eq_zero (l : String) : ∀ (txs : List BalanceTransaction),
    (∀ t ∈ txs, transactionLabel t ≠ l) → fundsInOf l txs = 0 := by
  intro txs
  induction txs with
  | nil => intro _; rfl
  | cons t rest ih =>
    intro h
    simp only [fundsInOf]
    rw [if_neg (by intro hc; exact h t (by simp) hc.2.1)]
    rw [ih (by intro u hu; exact h u (by simp [hu]))]
    ring

theorem fundsOutOf_eq_zero (l : String) : ∀ (txs : List BalanceTransaction),
    (∀ t ∈ txs, transactionLabel t ≠ l) → fundsOutOf l txs = 0 := by
  intro txs
  induction txs with
  | nil => intro _; rfl
  | cons t rest ih =>
    intro h
    simp only [fundsOutOf]
    rw [if_neg (by intro hc; exact h t (by simp) hc.2.1)]
    rw [ih (by intro u hu; exact h u (by simp [hu]))]
    ring

theorem final_map_lookup (txs : List BalanceTransaction) (endDay : Int) (l : String)
    (hl : l ∈ datesArray endDay) :
    (txs.foldl stepTransaction (initFundsFlowByDate (datesArray endDay), [])).1 l
      = some { date := l, fundsIn := fundsInOf l txs, fundsOut := fundsOutOf l txs } := by
  have hinit := initFundsFlowByDate_lookup (datesArray endDay) l
  rw [if_pos hl] at hinit
  rw [foldl_buckets_lookup txs _ [] l _ hinit]
  simp

theorem foldl_list_part : ∀ (txs : List BalanceTransaction) (m : FundsFlowMap)
    (acc : List BalanceTransaction),
    (txs.foldl stepTransaction (m, acc)).2
      = acc ++ txs.filter (fun t => !isHoldOrRelease t) := by
  intro txs
  induction txs with
  | nil => intro m acc; simp
  | cons t rest ih =>
    intro m acc
    simp only [List.foldl_cons]
    by_cases ht : isHoldOrRelease t
    · rw [stepTransaction_hold _ _ ht]
      rw [ih m acc]
      simp [List.filter_cons, ht]
    · rw [stepTransaction_nothold _ _ (by simpa using ht)]
      rw [ih _ (acc ++ [t])]
      simp [List.filter_cons, ht]

theorem getBalanceTransactions_list (txs : List BalanceTransaction) (endDay : Int)
    (cur : String) :
    (getBalanceTransactions txs endDay cur).balanceTransactions
      = txs.filter (fun t => !isHoldOrRelease t) := by
  unfold getBalanceTransactions
  simp only
  rw [foldl_list_part]
  simp

theorem getBalanceTransactions_chart (txs : List BalanceTransaction) (endDay : Int)
    (cur : String) :
    (getBalanceTransactions txs endDay cur).balanceFundsFlowChartData =
      { currency := cur,
        balanceTransactionsDates := (datesArray endDay).reverse,
        balanceTransactionsFundsIn :=
          ((datesArray endDay).map (fun l => fundsInOf l txs)).reverse,
        balanceTransactionsFundsOut :=
          ((datesArray endDay).map (fun l => fundsOutOf l txs)).reverse } := by
  unfold getBalanceTransactions
  simp only [BalanceChartData.mk.injEq]
  refine ⟨trivial, trivial, ?_, ?_⟩
  · congr 1
    apply List.map_congr_left
    intro l hl
    rw [final_map_lookup txs endDay l hl]
    rfl
  · congr 1
    apply List.map_congr_left
    intro l hl
    rw [final_map_lookup txs endDay l hl]
    rfl

theorem datesArray_length (endDay : Int) : (datesArray endDay).length = NUMBER_OF_DAYS := by
  simp [datesArray]

theorem datesArray_reverse (endDay : Int) : (datesArray endDay).reverse
    = (List.range NUMBER_OF_DAYS).map (fun (i : Nat) => fmtDay (endDay - 9 + (i : Int))) := by
  simp only [datesArray, NUMBER_OF_DAYS]
  norm_num [List.range_succ]
  refine ⟨?_, ?_, ?_, ?_, ?_, ?_, ?_, ?_⟩ <;> exact congrArg fmtDay (by ring)

theorem datesArray_nodup (endDay : Int) : (datesArray endDay).Nodup := by
  unfold datesArray
  apply List.Nodup.map_on
  · intro i hi j hj heq
    rw [List.mem_range] at hi hj
    have hN : NUMBER_OF_DAYS = 10 := rfl
    by_contra hne
    rcases Nat.lt_or_ge i j with hlt | hge
    · have hk := fmtDay_ne_of_near (endDay - i) (j - i) (by omega) (by omega)
      have harg : endDay - (i : Int) - ((j - i : Nat) : Int) = endDay - (j : Int) := by omega
      exact hk (by rw [harg]; exact heq.symm)
    · have hlt : j < i := by omega
      have hk := fmtDay_ne_of_near (endDay - j) (i - j) (by omega) (by omega)
      have harg : endDay - (j : Int) - ((i - j : Nat) : Int) = endDay - (i : Int) := by omega
      exact hk (by rw [harg]; exact heq)
  · exact List.nodup_range _

theorem fundsIn_getD (txs : List BalanceTransaction) (endDay : Int) (cur : String)
    (i : Nat) (hi : i < NUMBER_OF_DAYS) :
    (getBalanceTransactions txs endDay cur).balanceFundsFlowChartData.balanceTransactionsFundsIn.getD i 0
      = fundsInOf (fmtDay (endDay - 9 + i)) txs := by
  rw [getBalanceTransactions_chart]
  simp only
  rw [← List.map_reverse, datesArray_reverse, List.map_map]
  have hlen : i < ((List.range NUMBER_OF_DAYS).map
      ((fun l => fundsInOf l txs) ∘ fun (i : Nat) => fmtDay (endDay - 9 + (i : Int)))).length := by
    simpa using hi
  rw [List.getD_eq_getElem _ _ hlen]
  simp

theorem fundsOut_getD (txs : List BalanceTransaction) (endDay : Int) (cur : String)
    (i : Nat) (hi : i < NUMBER_OF_DAYS) :
    (getBalanceTransactions txs endDay cur).balanceFundsFlowChartData.balanceTransactionsFundsOut.getD i 0
      = fundsOutOf (fmtDay (endDay - 9 + i)) txs := by
  rw [getBalanceTransactions_chart]
  simp only
  rw [← List.map_reverse, datesArray_reverse, List.map_map]
  have hlen : i < ((List.range NUMBER_OF_DAYS).map
      ((fun l => fundsOutOf l txs) ∘ fun (i : Nat) => fmtDay (endDay - 9 + (i : Int)))).length := by
    simpa using hi
  rw [List.getD_eq_getElem _ _ hlen]
  simp

theorem fundsIn_array_congr (txs1 txs2 : List BalanceTransaction) (endDay : Int) (cur : String)
    (h : ∀ l ∈ datesArray endDay, fundsInOf l txs1 = fundsInOf l txs2) :
    (getBalanceTransactions txs1 endDay cur).balanceFundsFlowChartData.balanceTransactionsFundsIn
      = (getBalanceTransactions txs2 endDay cur).balanceFundsFlowChartData.balanceTransactionsFundsIn := by
  rw [getBalanceTransactions_chart, getBalanceTransactions_chart]
  simp only
  congr 1
  exact List.map_congr_left h

theorem fundsOut_array_congr (txs1 txs2 : List BalanceTransaction) (endDay : Int) (cur : String)
    (h : ∀ l ∈ datesArray endDay, fundsOutOf l txs1 = fundsOutOf l txs2) :
    (getBalanceTransactions txs1 endDay cur).balanceFundsFlowChartData.balanceTransactionsFundsOut
      = (getBalanceTransactions txs2 endDay cur).balanceFundsFlowChartData.balanceTransactionsFundsOut := by
  rw [getBalanceTransactions_chart, getBalanceTransactions_chart]
  simp only
  congr 1
  exact List.map_congr_left h

/-- C1: for every input transaction list the aggregation produces exactly
`NUMBER_OF_DAYS` = 10 date buckets, one per calendar day of the window
ending at the window end day, with pairwise-distinct `MMM dd` labels, and
days with no matching transaction keep `fundsIn = 0` and `fundsOut = 0`. -/
theorem claim_C1 (transactions : List BalanceTransaction) (endDay : Int) (currency : String) :
    (getBalanceTransactions transactions endDay currency).balanceFundsFlowChartData.balanceTransactionsDates.length
      = NUMBER_OF_DAYS ∧
    (getBalanceTransactions transactions endDay currency).balanceFundsFlowChartData.balanceTransactionsDates
      = (List.range NUMBER_OF_DAYS).map (fun (i : Nat) => fmtDay (endDay - 9 + (i : Int))) ∧
    (getBalanceTransactions transactions endDay currency).balanceFundsFlowChartData.balanceTransactionsDates.Nodup ∧
    ∀ i, i < NUMBER_OF_DAYS →
      (∀ t ∈ transactions, transactionLabel t ≠ fmtDay (endDay - 9 + (i : Int))) →
      (getBalanceTransactions transactions endDay currency).balanceFundsFlowChartData.balanceTransactionsFundsIn.getD i 0 = 0 ∧
      (getBalanceTransactions transactions endDay currency).balanceFundsFlowChartData.balanceTransactionsFundsOut.getD i 0 = 0 := by
  refine ⟨?_, ?_, ?_, ?_⟩
  · rw [getBalanceTransactions_chart]
    simp [datesArray_length]
  · rw [getBalanceTransactions_chart]
    simp only
    exact datesArray_reverse endDay
  · rw [getBalanceTransactions_chart]
    simp only [List.nodup_reverse]
    exact datesArray_nodup endDay
  · intro i hi h
    rw [fundsIn_getD _ _ _ i hi, fundsOut_getD _ _ _ i hi]
    exact ⟨fundsInOf_eq_zero _ _ h, fundsOutOf_eq_zero _ _ h⟩

theorem claim_C1_witness :
    (getBalanceTransactions [] 0 "usd").balanceFundsFlowChartData.balanceTransactionsFundsIn.getD 0 0 = 0 ∧
    (getBalanceTransactions [] 0 "usd").balanceFundsFlowChartData.balanceTransactionsFundsOut.getD 0 0 = 0 :=
  (claim_C1 [] 0 "usd").2.2.2 0 (by norm_num [NUMBER_OF_DAYS]) (by intro t ht; simp at ht)

/-- C2: a transaction of type `issuing_authorization_release` or
`issuing_authorization_hold` leaves the whole result unchanged (so every
bucket's `fundsIn`/`fundsOut` is untouched), and no such transaction ever
appears in the returned filtered transaction list. -/
theorem claim_C2 (pre post : List BalanceTransaction) (t : BalanceTransaction)
    (endDay : Int) (currency : String) (h : isHoldOrRelease t = true) :
    getBalanceTransactions (pre ++ t :: post) endDay currency
      = getBalanceTransactions (pre ++ post) endDay currency ∧
    ∀ txs, t ∉ (getBalanceTransactions txs endDay currency).balanceTransactions := by
  constructor
  · have hfold : ∀ (init : FundsFlowMap × List BalanceTransaction),
        (pre ++ t :: post).foldl stepTransaction init
          = (pre ++ post).foldl stepTransaction init := by
      intro init
      rw [List.foldl_append, List.foldl_append, List.foldl_cons, stepTransaction_hold _ _ h]
    simp only [getBalanceTransactions]
    rw [hfold]
  · intro txs
    rw [getBalanceTransactions_list]
    simp [List.mem_filter, h]

theorem claim_C2_witness :
    getBalanceTransactions
        [{ created := 0, amount := 700, type := "issuing_authorization_hold" }] 0 "usd"
      = getBalanceTransactions [] 0 "usd" :=
  (claim_C2 [] []
    { created := 0, amount := 700, type := "issuing_authorization_hold" } 0 "usd" (by decide)).1

/-- C3: the three returned sequences have equal lengths, and all three are the
reverses of the newest-first construction-order arrays, the date labels being
the consecutive window days in chronologically ascending order. -/
theorem claim_C3 (transactions : List BalanceTransaction) (endDay : Int) (currency : String) :
    (getBalanceTransactions transactions endDay currency).balanceFundsFlowChartData.balanceTransactionsDates.length
      = (getBalanceTransactions transactions endDay currency).balanceFundsFlowChartData.balanceTransactionsFundsIn.length ∧
    (getBalanceTransactions transactions endDay currency).balanceFundsFlowChartData.balanceTransactionsFundsIn.length
      = (getBalanceTransactions transactions endDay currency).balanceFundsFlowChartData.balanceTransactionsFundsOut.length ∧
    (getBalanceTransactions transactions endDay currency).balanceFundsFlowChartData.balanceTransactionsDates
      = (datesArray endDay).reverse ∧
    (getBalanceTransactions transactions endDay currency).balanceFundsFlowChartData.balanceTransactionsFundsIn
      = ((datesArray endDay).map (fun l => fundsInOf l transactions)).reverse ∧
    (getBalanceTransactions transactions endDay currency).balanceFundsFlowChartData.balanceTransactionsFundsOut
      = ((datesArray endDay).map (fun l => fundsOutOf l transactions)).reverse ∧
    (getBalanceTransactions transactions endDay currency).balanceFundsFlowChartData.balanceTransactionsDates
      = (List.range NUMBER_OF_DAYS).map (fun (i : Nat) => fmtDay (endDay - 9 + (i : Int))) := by
  simp only [getBalanceTransactions_chart]
  exact ⟨by simp, by simp, trivial, trivial, trivial, datesArray_reverse endDay⟩

/-- C4: a non-hold/release transaction of amount 1050 dated on the window's
last day adds exactly 10.50 to that day's `fundsIn` and changes no `fundsOut`
value; one of amount -500 dated on the window's first day adds exactly 5.00 to
that day's `fundsOut` and changes no `fundsIn` value (`|amount| / 100`). -/
theorem claim_C4 (txs : List BalanceTransaction) (tin tout : BalanceTransaction)
    (endDay : Int) (currency : String)
    (hin1 : isHoldOrRelease tin = false) (hin2 : tin.amount = 1050)
    (hin3 : dayOfCreated tin.created = endDay)
    (hout1 : isHoldOrRelease tout = false) (hout2 : tout.amount = -500)
    (hout3 : dayOfCreated tout.created = endDay - 9) :
    (getBalanceTransactions (txs ++ [tin]) endDay currency).balanceFundsFlowChartData.balanceTransactionsFundsIn.getD 9 0
      = (getBalanceTransactions txs endDay currency).balanceFundsFlowChartData.balanceTransactionsFundsIn.getD 9 0
          + 21/2 ∧
    (getBalanceTransactions (txs ++ [tin]) endDay currency).balanceFundsFlowChartData.balanceTransactionsFundsOut
      = (getBalanceTransactions txs endDay currency).balanceFundsFlowChartData.balanceTransactionsFundsOut ∧
    (getBalanceTransactions (txs ++ [tout]) endDay currency).balanceFundsFlowChartData.balanceTransactionsFundsOut.getD 0 0
      = (getBalanceTransactions txs endDay currency).balanceFundsFlowChartData.balanceTransactionsFundsOut.getD 0 0
          + 5 ∧
    (getBalanceTransactions (txs ++ [tout]) endDay currency).balanceFundsFlowChartData.balanceTransactionsFundsIn
      = (getBalanceTransactions txs endDay currency).balanceFundsFlowChartData.balanceTransactionsFundsIn := by
  have hlabin : transactionLabel tin = fmtDay (endDay - 9 + ((9 : Nat) : Int)) := by
    unfold transactionLabel
    rw [hin3]
    exact congrArg fmtDay (by norm_num)
  have hlabout : transactionLabel tout = fmtDay (endDay - 9 + ((0 : Nat) : Int)) := by
    unfold transactionLabel
    rw [hout3]
    exact congrArg fmtDay (by norm_num)
  refine ⟨?_, ?_, ?_, ?_⟩
  · rw [fundsIn_getD _ _ _ 9 (by norm_num [NUMBER_OF_DAYS]),
      fundsIn_getD _ _ _ 9 (by norm_num [NUMBER_OF_DAYS])]
    rw [fundsInOf_append]
    have hsingle : fundsInOf (fmtDay (endDay - 9 + ((9 : Nat) : Int))) [tin] = 21/2 := by
      simp only [fundsInOf]
      rw [if_pos ⟨hin1, hlabin, by rw [hin2]; norm_num⟩]
      rw [transactionAmount, hin2]
      norm_num
    rw [hsingle]
  · apply fundsOut_array_congr
    intro l hl
    rw [fundsOutOf_append]
    have hsingle : fundsOutOf l [tin] = 0 := by
      simp only [fundsOutOf]
      rw [if_neg (by intro hc; exact hc.2.2 (by rw [hin2]; norm_num))]
      ring
    rw [hsingle]
    ring
  · rw [fundsOut_getD _ _ _ 0 (by norm_num [NUMBER_OF_DAYS]),
      fundsOut_getD _ _ _ 0 (by norm_num [NUMBER_OF_DAYS])]
    rw [fundsOutOf_append]
    have hsingle : fundsOutOf (fmtDay (endDay - 9 + ((0 : Nat) : Int))) [tout] = 5 := by
      simp only [fundsOutOf]
      rw [if_pos ⟨hout1, hlabout, by rw [hout2]; norm_num⟩]
      rw [transactionAmount, hout2]
      norm_num
    rw [hsingle]
  · apply fundsIn_array_congr
    intro l hl
    rw [fundsInOf_append]
    have hsingle : fundsInOf l [tout] = 0 := by
      simp only [fundsInOf]
      rw [if_neg (by intro hc; have := hc.2.2; rw [hout2] at this; omega)]
      ring
    rw [hsingle]
    ring

theorem claim_C4_witness :
    (getBalanceTransactions [{ created := 0, amount := 1050, type := "charge" }] 0 "usd").balanceFundsFlowChartData.balanceTransactionsFundsIn.getD 9 0
      = (getBalanceTransactions [] 0 "usd").balanceFundsFlowChartData.balanceTransactionsFundsIn.getD 9 0 + 21/2 :=
  (claim_C4 [] { created := 0, amount := 1050, type := "charge" }
    { created := -777600, amount := -500, type := "charge" } 0 "usd"
    (by decide) rfl rfl (by decide) rfl (by decide)).1

/-- C5: a non-hold/release transaction whose formatted date matches no bucket
leaves the whole chart unchanged but is still appended to (and so appears in)
the returned filtered transaction list. -/
theorem claim_C5 (txs : List BalanceTransaction) (t : BalanceTransaction)
    (endDay : Int) (currency : String)
    (h1 : isHoldOrRelease t = false) (h2 : transactionLabel t ∉ datesArray endDay) :
    (getBalanceTransactions (txs ++ [t]) endDay currency).balanceFundsFlowChartData
      = (getBalanceTransactions txs endDay currency).balanceFundsFlowChartData ∧
    (getBalanceTransactions (txs ++ [t]) endDay currency).balanceTransactions
      = (getBalanceTransactions txs endDay currency).balanceTransactions ++ [t] ∧
    t ∈ (getBalanceTransactions (txs ++ [t]) endDay currency).balanceTransactions := by
  have hlab : ∀ l ∈ datesArray endDay, ∀ u ∈ [t], transactionLabel u ≠ l := by
    intro l hl u hu
    simp only [List.mem_singleton] at hu
    subst hu
    intro hc
    exact h2 (hc ▸ hl)
  refine ⟨?_, ?_, ?_⟩
  · rw [getBalanceTransactions_chart, getBalanceTransactions_chart]
    simp only [BalanceChartData.mk.injEq]
    refine ⟨trivial, trivial, ?_, ?_⟩
    · congr 1
      apply List.map_congr_left
      intro l hl
      rw [fundsInOf_append, fundsInOf_eq_zero l [t] (hlab l hl)]
      ring
    · congr 1
      apply List.map_congr_left
      intro l hl
      rw [fundsOutOf_append, fundsOutOf_eq_zero l [t] (hlab l hl)]
      ring
  · rw [getBalanceTransactions_list, getBalanceTransactions_list, List.filter_append]
    simp [h1]
  · rw [getBalanceTransactions_list]
    simp [List.mem_filter, h1]

theorem claim_C5_witness :
    (getBalanceTransactions [{ created := 864000, amount := 300, type := "charge" }] 0 "usd").balanceFundsFlowChartData
      = (getBalanceTransactions [] 0 "usd").balanceFundsFlowChartData ∧
    { created := 864000, amount := 300, type := "charge" }
      ∈ (getBalanceTransactions [{ created := 864000, amount := 300, type := "charge" }] 0 "usd").balanceTransactions := by
  have h := claim_C5 [] { created := 864000, amount := 300, type := "charge" } 0 "usd"
    (by decide) (by decide)
  exact ⟨h.1, h.2.2⟩

/-- C6: an in-window non-hold/release transaction of amount exactly 0 fails the
strict-positive test (so it is routed to the `fundsOut` branch), contributes
`|0|/100 = 0`, and the resulting chart is identical to the one without it. -/
theorem claim_C6 (txs : List BalanceTransaction) (t : BalanceTransaction)
    (endDay : Int) (currency : String)
    (h1 : isHoldOrRelease t = false) (h2 : t.amount = 0)
    (h3 : transactionLabel t ∈ datesArray endDay) :
    ¬0 < t.amount ∧ transactionAmount t = 0 ∧
    (getBalanceTransactions (txs ++ [t]) endDay currency).balanceFundsFlowChartData
      = (getBalanceTransactions txs endDay currency).balanceFundsFlowChartData := by
  have hnp : ¬0 < t.amount := by rw [h2]; omega
  have hamt : transactionAmount t = 0 := by
    rw [transactionAmount, h2]
    norm_num
  refine ⟨hnp, hamt, ?_⟩
  rw [getBalanceTransactions_chart, getBalanceTransactions_chart]
  simp only [BalanceChartData.mk.injEq]
  refine ⟨trivial, trivial, ?_, ?_⟩
  · congr 1
    apply List.map_congr_left
    intro l hl
    rw [fundsInOf_append]
    have hsingle : fundsInOf l [t] = 0 := by
      simp only [fundsInOf]
      rw [if_neg (by intro hc; exact hnp hc.2.2)]
      ring
    rw [hsingle]
    ring
  · congr 1
    apply List.map_congr_left
    intro l hl
    rw [fundsOutOf_append]
    have hsingle : fundsOutOf l [t] = 0 := by
      simp only [fundsOutOf]
      split
      · rw [hamt]; ring
      · ring
    rw [hsingle]
    ring

theorem claim_C6_witness :
    transactionAmount { created := 0, amount := 0, type := "charge" } = 0 ∧
    (getBalanceTransactions [{ created := 0, amount := 0, type := "charge" }] 0 "usd").balanceFundsFlowChartData
      = (getBalanceTransactions [] 0 "usd").balanceFundsFlowChartData := by
  have h := claim_C6 [] { created := 0, amount := 0, type := "charge" } 0 "usd"
    (by decide) rfl (by decide)
  exact ⟨h.2.1, h.2.2⟩

/-- C7: the aggregation is a pure function of the transaction list, the window
end day, and the currency: equal inputs give equal (bit-identical) outputs. -/
theorem claim_C7 (txs1 txs2 : List BalanceTransaction) (e1 e2 : Int) (c1 c2 : String)
    (h1 : txs1 = txs2) (h2 : e1 = e2) (h3 : c1 = c2) :
    getBalanceTransactions txs1 e1 c1 = getBalanceTransactions txs2 e2 c2 := by
  subst h1; subst h2; subst h3; rfl

theorem claim_C7_witness :
    getBalanceTransactions [] 0 "usd" = getBalanceTransactions [] 0 "usd" :=
  claim_C7 [] [] 0 0 "usd" "usd" rfl rfl rfl

/-- C8: `getBankTransferType` is total (it is a function), maps GB and US to
their bank-transfer types, and every other country string to
`eu_bank_transfer`. -/
theorem claim_C8 :
    getBankTransferType ("GB") = "gb_bank_transfer" ∧
    getBankTransferType ("US") = "us_bank_transfer" ∧
    ∀ country, country ≠ "GB" → country ≠ "US" →
      getBankTransferType country = "eu_bank_transfer" := by
  refine ⟨by decide, by decide, ?_⟩
  intro country h1 h2
  unfold getBankTransferType
  rw [if_neg h1, if_neg h2]

theorem claim_C8_witness : getBankTransferType ("DE") = "eu_bank_transfer" :=
  claim_C8.2.2 "DE" (by decide) (by decide)

theorem currentSpend_foldl : ∀ (auths : List Authorization) (s : Int),
    auths.foldl
      (fun current_spend authorization =>
        if authorization.approved = true then current_spend + authorization.amount
        else current_spend) s
    = s + ((auths.filter (fun a => a.approved)).map (fun a => a.amount)).sum := by
  intro auths
  induction auths with
  | nil => intro s; simp
  | cons a rest ih =>
    intro s
    simp only [List.foldl_cons, List.filter_cons]
    cases ha : a.approved
    · simp [ha, ih s]
    · simp [ha, ih (s + a.amount)]
      ring

/-- C9: `current_spend` equals the sum of the amounts of exactly the approved
authorizations; non-approved ones contribute nothing. -/
theorem claim_C9 (card_authorizations : List Authorization) :
    (getCardDetails card_authorizations).current_spend
      = ((card_authorizations.filter (fun a => a.approved)).map (fun a => a.amount)).sum := by
  unfold getCardDetails currentSpend
  simp only
  rw [currentSpend_foldl]
  ring

/-- C10: `getStripeSecretKey` throws exactly for platform values outside
{UK, EU, US}; for a supported platform it never throws and returns the
corresponding environment key, or `null` when that key is unset or empty. -/
theorem claim_C10 :
    (∀ (env : EnvMap) (s : String),
      getStripeSecretKey env (Platform.unsupported s)
        = Except.error ("Unsupported platform: " ++ s)) ∧
    (∀ (env : EnvMap) (p : Platform),
      p = Platform.UK ∨ p = Platform.EU ∨ p = Platform.US →
      ∃ v, getStripeSecretKey env p = Except.ok v) ∧
    (∀ (env : EnvMap) (name : String) (p : Platform),
      (p = Platform.UK ∧ name = "STRIPE_SECRET_KEY_UK")
        ∨ (p = Platform.EU ∧ name = "STRIPE_SECRET_KEY_EU")
        ∨ (p = Platform.US ∧ name = "STRIPE_SECRET_KEY_US") →
      (env name = none → getStripeSecretKey env p = Except.ok none) ∧
      (∀ k, env name = some k → k = "" → getStripeSecretKey env p = Except.ok none) ∧
      (∀ k, env name = some k → k ≠ "" → getStripeSecretKey env p = Except.ok (some k))) := by
  refine ⟨fun env s => rfl, ?_, ?_⟩
  · intro env p hp
    rcases hp with h | h | h <;> subst h <;> exact ⟨_, rfl⟩
  · intro env name p hp
    rcases hp with ⟨hp, hn⟩ | ⟨hp, hn⟩ | ⟨hp, hn⟩ <;> subst hp <;> subst hn <;>
      exact ⟨fun h => by simp [getStripeSecretKey, keyOrNull, h],
        fun k hk hke => by simp [getStripeSecretKey, keyOrNull, hk, hke],
        fun k hk hke => by simp [getStripeSecretKey, keyOrNull, hk, hke]⟩

theorem claim_C10_witness :
    getStripeSecretKey (fun _ => none) Platform.UK = Except.ok none ∧
    getStripeSecretKey (fun _ => none) (Platform.unsupported "BR")
      = Except.error ("Unsupported platform: " ++ "BR") :=
  ⟨((claim_C10.2.2 (fun _ => none) "STRIPE_SECRET_KEY_UK" Platform.UK
      (Or.inl ⟨rfl, rfl⟩)).1 rfl),
    claim_C10.1 (fun _ => none) "BR"⟩
